import Mathlib

/-!
Verification of the x402-auction-mcp protocol adapter.

This file gives a shallow embedding, in Lean, of the response-classification
core of the `x402-auction-mcp` repository: the input validators
(`src/handlers.ts`), the API-client classifiers and calm-token cache
(`src/api.ts`), the MCP tool handlers (`src/handlers.ts`, richest revision),
the payment-deeplink builder (`generateTonDeeplink`), and the structured
error formatter of the server entry point (`formatError` in `src/index.ts`).

JavaScript numbers are modelled by `JSNum` (NaN, infinities, or an exact
rational); `parseFloat` on plain decimal literals together with binary64
arithmetic is modelled exactly by `decToDouble` / `mulDouble`, which compute
the IEEE-754 round-to-nearest-even double value as a dyadic pair
(significand, exponent) using only natural-number arithmetic, so every
concrete evaluation reduces in the kernel.
-/

set_option maxRecDepth 100000

namespace X402

/-! ## JavaScript value and number model -/

/-- A JavaScript number: NaN, an infinity, or a finite value (exact rational). -/
inductive JSNum where
  | nan
  | inf
  | ninf
  | fin (q : ℚ)
deriving DecidableEq

/-- The JavaScript values the embedded functions can receive as arguments:
`undefined`, a number, a string, or anything else (object, boolean, null...),
which the validators only inspect through `typeof`. -/
inductive JSValue where
  | undef
  | num (x : JSNum)
  | str (s : String)
  | other
deriving DecidableEq

/-- `isNaN(x)` for a number argument. -/
def JSNum.isNaN : JSNum → Bool
  | .nan => true
  | _ => false

/-- JavaScript `<` on numbers (`NaN` compares false with everything). -/
def JSNum.ltb : JSNum → JSNum → Bool
  | .nan, _ => false
  | _, .nan => false
  | .fin a, .fin b => decide (a < b)
  | .ninf, .ninf => false
  | .ninf, _ => true
  | _, .ninf => false
  | .inf, _ => false
  | .fin _, .inf => true

/-- `Math.min(a, b)` for non-NaN arguments. -/
def JSNum.minJS : JSNum → JSNum → JSNum
  | .fin a, .fin b => .fin (min a b)
  | .ninf, _ => .ninf
  | _, .ninf => .ninf
  | .inf, b => b
  | a, .inf => a
  | .nan, _ => .nan
  | _, .nan => .nan

/-- JavaScript string truthiness composed with `||`: the first operand if it
is a present, non-empty string, otherwise the fallback. -/
def jsOrStr (a : Option String) (b : String) : String :=
  match a with
  | some s => if s = "" then b else s
  | none => b

/-- Truthiness filter for an optional integer (`0` and absence are falsy). -/
def truthyInt (a : Option ℤ) : Option ℤ :=
  match a with
  | some n => if n = 0 then none else some n
  | none => none

/-- Truthiness filter for an optional string (`""` and absence are falsy). -/
def truthyStr (a : Option String) : Option String :=
  match a with
  | some s => if s = "" then none else some s
  | none => none

/-- JavaScript `x < c` where `x` may be `undefined` (`undefined < c` is false:
the comparison coerces `undefined` to NaN). -/
def jsLtQ (x : Option ℚ) (c : ℚ) : Bool :=
  match x with
  | some v => decide (v < c)
  | none => false

/-! ## Decimal-literal parsing (the `parseFloat` fragment the adapter feeds) -/

/-- Numeric value of a decimal digit character, if it is one. -/
def digitVal (c : Char) : Option ℕ :=
  if 48 ≤ c.toNat ∧ c.toNat ≤ 57 then some (c.toNat - 48) else none

/-- Value of a list of decimal digit characters (most significant first);
`none` if any character is not a digit.  The empty list has value `0`. -/
def digitsVal : List Char → Option ℕ
  | [] => some 0
  | c :: cs =>
    match digitVal c, digitsVal cs with
    | some d, some v => some (d * 10 ^ cs.length + v)
    | _, _ => none

/-- Parse a plain non-negative decimal literal (`"12"`, `"12.5"`, `"12."`,
`".5"`) into `(n, f)` with value `n / 10 ^ f`.  This is the fragment of
JavaScript `parseFloat` exercised by the adapter, which only ever feeds it
decimal amount strings; other inputs are out of the modelled domain
(`none`, which the callers treat as NaN). -/
def parseDecimal (s : String) : Option (ℕ × ℕ) :=
  let l := s.toList
  if l = [] then none
  else
    match l.span (fun c => c.toNat ≠ 46) with
    | (intPart, []) => (digitsVal intPart).map (fun n => (n, 0))
    | (intPart, _dot :: frac) =>
      if intPart = [] ∧ frac = [] then none
      else if frac.any (fun c => c.toNat = 46) then none
      else
        match digitsVal intPart, digitsVal frac with
        | some ni, some nf => some (ni * 10 ^ frac.length + nf, frac.length)
        | _, _ => none

/-! ## Exact binary64 (IEEE-754 double) model

A non-negative finite double is represented as `sig * 2 ^ exp`.  Rounding is
round-to-nearest, ties to even, with subnormal handling at `2 ^ (-1074)`;
this is exactly the JavaScript semantics for the (small, positive) amounts
the adapter manipulates.  Overflow to infinity is outside the modelled range. -/

/-- A non-negative finite binary64 value `sig * 2 ^ exp`. -/
structure DblF where
  sig : ℕ
  exp : ℤ
deriving DecidableEq

/-- Round-to-nearest-even of the rational `a / b` to a natural number. -/
def rheNat (a b : ℕ) : ℕ :=
  let q := a / b
  let r := a % b
  if b < 2 * r then q + 1
  else if 2 * r < b then q
  else if q % 2 = 0 then q else q + 1

/-- Fuel-driven binary length (`bitLenF fuel n` is the bit length of `n`
provided `n ≤ fuel`). -/
def bitLenF : ℕ → ℕ → ℕ
  | 0, _ => 0
  | fuel + 1, n => if n = 0 then 0 else bitLenF fuel (n / 2) + 1

/-- Bit length of a natural number (`0` for `0`; `2 ^ (bitLen n - 1) ≤ n <
2 ^ bitLen n` for positive `n`). -/
def bitLen (n : ℕ) : ℕ := bitLenF n n

/-- Decide `n / d < 2 ^ L` (for positive `n`, `d`) without rational division. -/
def declt (n d : ℕ) (L : ℤ) : Bool :=
  if 0 ≤ L then decide (n < d * 2 ^ L.toNat) else decide (n * 2 ^ (-L).toNat < d)

/-- The binade exponent of `n / d`: the unique `E` with
`2 ^ E ≤ n / d < 2 ^ (E + 1)` (for positive `n`, `d`). -/
def binadeExp (n d : ℕ) : ℤ :=
  let L : ℤ := (bitLen n : ℤ) - (bitLen d : ℤ)
  if declt n d L then L - 1 else L

/-- Round the non-negative rational `n / 10 ^ f` to the nearest binary64
value (ties to even), as JavaScript `parseFloat` does for decimal literals. -/
def decToDouble (n f : ℕ) : DblF :=
  if n = 0 then ⟨0, 0⟩
  else
    let d := 10 ^ f
    let E := binadeExp n d
    let u : ℤ := max (E - 52) (-1074)
    if 0 ≤ u then ⟨rheNat n (d * 2 ^ u.toNat), u⟩
    else ⟨rheNat (n * 2 ^ (-u).toNat) d, u⟩

/-- Correctly rounded binary64 product, as JavaScript `*` on doubles. -/
def mulDouble (a b : DblF) : DblF :=
  let n := a.sig * b.sig
  if n = 0 then ⟨0, 0⟩
  else
    let e : ℤ := a.exp + b.exp
    let E : ℤ := ((bitLen n : ℤ) - 1) + e
    let u : ℤ := max (E - 52) (-1074)
    if u ≤ e then ⟨n * 2 ^ (e - u).toNat, u⟩
    else ⟨rheNat n (2 ^ (u - e).toNat), u⟩

/-- `Math.floor` of a non-negative finite double (exact on this range). -/
def dblFloor (x : DblF) : ℤ :=
  if 0 ≤ x.exp then (x.sig : ℤ) * 2 ^ x.exp.toNat
  else ((x.sig / 2 ^ (-x.exp).toNat : ℕ) : ℤ)

/-- `parseFloat` on the adapter-supplied decimal strings, landing in a
binary64 value; `none` models a NaN result. -/
def jsParseFloat (s : String) : Option DblF :=
  (parseDecimal s).map fun p => decToDouble p.1 p.2

/-- The double literal `1e9` (exactly representable). -/
def dbl1e9 : DblF := ⟨1000000000, 0⟩

/-- JavaScript `parseFloat(a) > parseFloat(b)` (false if either is NaN). -/
def dblGt (a b : Option DblF) : Bool :=
  match a, b with
  | some x, some y =>
    let k := min x.exp y.exp
    decide (y.sig * 2 ^ (y.exp - k).toNat < x.sig * 2 ^ (x.exp - k).toNat)
  | _, _ => false

/-- JavaScript `parseFloat(s) > 0` (false on NaN; a non-negative double is
positive exactly when its significand is). -/
def parseFloatPos (s : String) : Bool :=
  match jsParseFloat s with
  | some d => decide (0 < d.sig)
  | none => false

/-! ## String helpers used by the source -/

/-- `String.trim` of JavaScript/Lean, re-implemented structurally:
strip leading and trailing whitespace. -/
def jsTrim (s : String) : String :=
  ⟨((s.toList.dropWhile Char.isWhitespace).reverse.dropWhile Char.isWhitespace).reverse⟩

/-- Uppercase hexadecimal digit character for `n < 16`. -/
def hexChar (n : ℕ) : Char :=
  if n < 10 then Char.ofNat (48 + n) else Char.ofNat (55 + n)

/-- UTF-8 bytes of a character (by code point arithmetic). -/
def utf8Bytes (c : Char) : List ℕ :=
  let n := c.toNat
  if n < 128 then [n]
  else if n < 2048 then [192 + n / 64, 128 + n % 64]
  else if n < 65536 then [224 + n / 4096, 128 + n / 64 % 64, 128 + n % 64]
  else [240 + n / 262144, 128 + n / 4096 % 64, 128 + n / 64 % 64, 128 + n % 64]

/-- Is the character left unescaped by `encodeURIComponent`?
(letters, digits, and `- _ . ! ~ * ( )` and the apostrophe). -/
def uriUnreserved (c : Char) : Bool :=
  let n := c.toNat
  decide ((65 ≤ n ∧ n ≤ 90) ∨ (97 ≤ n ∧ n ≤ 122) ∨ (48 ≤ n ∧ n ≤ 57) ∨
    n = 45 ∨ n = 95 ∨ n = 46 ∨ n = 33 ∨ n = 126 ∨ n = 42 ∨ n = 39 ∨ n = 40 ∨ n = 41)

/-- JavaScript `encodeURIComponent`: keep unreserved characters, percent-encode
the UTF-8 bytes of everything else with uppercase hex. -/
def encodeURIComponent (s : String) : String :=
  ⟨s.toList.flatMap fun c =>
    if uriUnreserved c then [c]
    else (utf8Bytes c).flatMap fun b => [Char.ofNat 37, hexChar (b / 16), hexChar (b % 16)]⟩

/-! ## Configuration constants (`src/constants.ts`) -/

def API_BASE_URL : String := "https://x402.palette.finance/api"

namespace HTTP_STATUS

def OK : ℤ := 200
def PAYMENT_REQUIRED : ℤ := 402
def NOT_FOUND : ℤ := 404
def CONFLICT : ℤ := 409
def GONE : ℤ := 410
def INVALID_AMOUNT : ℤ := 422
def INTERNAL_ERROR : ℤ := 500

/-- Modelled from the spec: the constants revision that declares the
rate-limited status (together with the `CALM_TOKENS` map consumed by
`src/api.ts`) is not among the checked-in sources; per the glossary and the
`EnhanceYourCalm420Response` payload type it is HTTP 420.  No claim depends
on the numeric value, only on its identity. -/
def RATE_LIMITED : ℤ := 420

end HTTP_STATUS

namespace BID_LIMITS

def MIN_TON : ℚ := 1
def MAX_TON : ℚ := 100
def PAYMENT_TIMEOUT_SECONDS : ℕ := 180

end BID_LIMITS

def DEFAULT_BIDS_LIMIT : ℚ := 20
def MAX_BIDS_LIMIT : ℚ := 100

/-! ## JSON bodies

JavaScript treats the parsed response body as an untyped object; the
handlers only ever read the fields below, each of which may be absent
(`undefined`).  One record type plays the role of every payload shape of
`src/types.ts` (auction info, 402 quote, existing-bid records, error
bodies, the 420 calm-token body). -/

structure Body where
  error : Option String := none
  message : Option String := none
  status : Option String := none
  bid_id : Option String := none
  ton_amount : Option String := none
  bid_price_ton : Option String := none
  estimated_token : Option ℚ := none
  current_auction_price : Option String := none
  tx_hash : Option String := none
  created_at : Option String := none
  paymentId : Option String := none
  amount : Option String := none
  payer : Option String := none
  timestamp : Option ℚ := none
  signature : Option String := none
  allocated_token : Option String := none
  final_price_ton : Option String := none
  refund_ton : Option String := none
  network : Option String := none
  currency : Option String := none
  auction_id : Option String := none
  current_price_ton : Option String := none
  pay_to : Option String := none
  expires_in : Option ℚ := none
  tonconnect_universal_link : Option String := none
  expiresAt : Option String := none
  nonce : Option String := none
  closed_at : Option String := none
  total_raised_ton : Option String := none
  progress_percent : Option String := none
  tokens_per_ton : Option ℚ := none
  target_ton : Option String := none
  calm_token : Option String := none
  calm_token_expires_in : Option ℚ := none
deriving DecidableEq

/-! ## Validators (`src/handlers.ts`) -/

/-- `validateBidAmount` — throws unless the argument is a non-NaN number
within `BID_LIMITS`; the error message is the thrown `Error`in each case. -/
def validateBidAmount (amount : JSValue) : Except String Unit :=
  match amount with
  | .num x =>
    if x.isNaN then .error "Bid amount must be a valid number"
    else if x.ltb (.fin BID_LIMITS.MIN_TON) || (JSNum.fin BID_LIMITS.MAX_TON).ltb x then
      .error "Bid amount must be between 1 and 100 TON"
    else .ok ()
  | _ => .error "Bid amount must be a valid number"

/-- `validateWallet` — requires a truthy string that is non-empty after
trimming. -/
def validateWallet (wallet : JSValue) : Except String Unit :=
  match wallet with
  | .str s =>
    if s = "" then .error "Valid wallet address is required"
    else if (jsTrim s).length = 0 then .error "Valid wallet address is required"
    else .ok ()
  | _ => .error "Valid wallet address is required"

/-- `validateBidId` — same shape check as the wallet. -/
def validateBidId (bidId : JSValue) : Except String Unit :=
  match bidId with
  | .str s =>
    if s = "" then .error "Valid bid ID is required"
    else if (jsTrim s).length = 0 then .error "Valid bid ID is required"
    else .ok ()
  | _ => .error "Valid bid ID is required"

/-- `validateLimit` — absent, non-number, NaN or sub-1 inputs yield the
default; otherwise `Math.min(limit, MAX_BIDS_LIMIT)`.  Never fails. -/
def validateLimit (limit : JSValue) : JSNum :=
  match limit with
  | .undef => .fin DEFAULT_BIDS_LIMIT
  | .num x =>
    if x.isNaN then .fin DEFAULT_BIDS_LIMIT
    else if x.ltb (.fin 1) then .fin DEFAULT_BIDS_LIMIT
    else x.minJS (.fin MAX_BIDS_LIMIT)
  | _ => .fin DEFAULT_BIDS_LIMIT

/-! ## API client (`src/api.ts`)

Each network helper awaits `fetchWithStatus` and then classifies the
`(status, body)` pair, either returning a payload or throwing a structured
error object.  The embedding takes the `(status, body)` pair as input and
returns `Except ApiErrObj`; the surrounding handler supplies the pair that
the transport would have produced. -/

/-- The error object thrown by the API client
(`throw ⟨code, error, message, details⟩`). -/
structure ApiErrObj where
  code : ℤ
  error : String
  message : String
  details : Option Body := none
deriving DecidableEq

deriving instance DecidableEq for Except

/-- `getAuctionInfo` — 404 means no auction, any other non-200 is an
upstream error, 200 returns the snapshot body. -/
def getAuctionInfo (status : ℤ) (data : Body) : Except ApiErrObj Body :=
  if status = HTTP_STATUS.NOT_FOUND then
    .error ⟨status, "no_auction", jsOrStr data.message "No auction found", some data⟩
  else if status ≠ HTTP_STATUS.OK then
    .error ⟨status, jsOrStr data.error "api_error", jsOrStr data.message "API request failed", some data⟩
  else .ok data

/-- `createBid` — 402 (new quote) and 200 (existing bid) are returned with
their status; everything else is thrown. -/
def createBid (status : ℤ) (data : Body) : Except ApiErrObj (ℤ × Body) :=
  if status = HTTP_STATUS.PAYMENT_REQUIRED then .ok (status, data)
  else if status = HTTP_STATUS.OK then .ok (status, data)
  else
    .error ⟨status, jsOrStr data.error "api_error", jsOrStr data.message "Failed to create bid", some data⟩

/-- `checkBidById` — 404 is thrown as `bid_not_found`; 200, 402 and 410 are
all valid lookup outcomes; everything else is an upstream error. -/
def checkBidById (status : ℤ) (data : Body) : Except ApiErrObj (ℤ × Body) :=
  if status = HTTP_STATUS.NOT_FOUND then
    .error ⟨status, "bid_not_found", jsOrStr data.message "Bid ID not found", some data⟩
  else if status ≠ HTTP_STATUS.OK ∧ status ≠ HTTP_STATUS.PAYMENT_REQUIRED ∧ status ≠ HTTP_STATUS.GONE then
    .error ⟨status, jsOrStr data.error "api_error", jsOrStr data.message "API request failed", some data⟩
  else .ok (status, data)

/-- `getMyBid` — every non-200 status, 404 included, is thrown as an error
object; only 200 returns the bid record. -/
def getMyBid (status : ℤ) (data : Body) : Except ApiErrObj Body :=
  if status ≠ HTTP_STATUS.OK then
    .error ⟨status, jsOrStr data.error "api_error", jsOrStr data.message "API request failed", some data⟩
  else .ok data

/-- `getRecentBids` — non-200 is thrown, 200 returns the list body. -/
def getRecentBids (status : ℤ) (data : Body) : Except ApiErrObj Body :=
  if status ≠ HTTP_STATUS.OK then
    .error ⟨status, jsOrStr data.error "api_error", jsOrStr data.message "API request failed", some data⟩
  else .ok data

/-! ## Calm-token cache (`src/api.ts`, rate-limit support)

`CALM_TOKENS` is a process-wide map from endpoint to `(token, expiresAt)`;
timestamps are milliseconds (`Date.now()`), kept rational because the
expiry is computed from a JSON number of seconds. -/

/-- A stored calm token; `expiresAt` is `none` when the arithmetic produced
NaN (absent `calm_token_expires_in`). -/
structure TokenData where
  token : String
  expiresAt : Option ℚ
deriving DecidableEq

/-- The `CALM_TOKENS` map, as an association list keyed by endpoint. -/
abbrev CalmStore := List (String × TokenData)

/-- `Map.get`. -/
def storeGet (st : CalmStore) (endpoint : String) : Option TokenData :=
  match st with
  | [] => none
  | (k, v) :: rest => if k = endpoint then some v else storeGet rest endpoint

/-- `Map.set` (replace or insert). -/
def storeSet (st : CalmStore) (endpoint : String) (td : TokenData) : CalmStore :=
  match st with
  | [] => [(endpoint, td)]
  | (k, v) :: rest => if k = endpoint then (k, td) :: rest else (k, v) :: storeSet rest endpoint td

/-- `getCalmToken` — return the stored token only when its recorded expiry
is strictly later than the current time. -/
def getCalmToken (st : CalmStore) (endpoint : String) (now : ℚ) : Option String :=
  match storeGet st endpoint with
  | some td =>
    match td.expiresAt with
    | some t => if now < t then some td.token else none
    | none => none
  | none => none

/-- `setCalmToken` — store the token with expiry `now + seconds * 1000`. -/
def setCalmToken (st : CalmStore) (endpoint : String) (token : String)
    (expiresInSeconds : Option ℚ) (now : ℚ) : CalmStore :=
  storeSet st endpoint ⟨token, expiresInSeconds.map fun q => now + q * 1000⟩

/-- Result of one `fetchWithStatus` call: the request headers it sent, the
response it returned, and the calm-token store it left behind. -/
structure FetchResult where
  headers : List (String × String)
  status : ℤ
  data : Body
  store : CalmStore

/-- `fetchWithStatus` — attach a live calm token for the endpoint (if any)
as the `calm-token` header, and on a rate-limited response carrying a
`calm_token` store the fresh token.  `now1` and `now2` are the two
`Date.now()` readings (header construction and token storage). -/
def fetchWithStatus (st : CalmStore) (endpoint : Option String) (now1 now2 : ℚ)
    (resp : ℤ × Body) : FetchResult :=
  let headers : List (String × String) :=
    match endpoint with
    | some e =>
      if e = "" then []
      else
        match getCalmToken st e now1 with
        | some t => [("calm-token", t)]
        | none => []
    | none => []
  let st2 : CalmStore :=
    if resp.1 = HTTP_STATUS.RATE_LIMITED then
      match endpoint with
      | some e =>
        if e = "" then st
        else
          match resp.2.calm_token with
          | some tok => if tok = "" then st else setCalmToken st e tok resp.2.calm_token_expires_in now2
          | none => st
      | none => st
    else st
  ⟨headers, resp.1, resp.2, st2⟩

/-! ## Payment deeplink (`generateTonDeeplink`, handlers revision with the
TON universal link) -/

/-- The nanoton amount the deeplink embeds:
`Math.floor(parseFloat(amountTon) * 1e9)` in binary64; `none` is `NaN`. -/
def tonAmountNanotons (amountTon : String) : Option ℤ :=
  (jsParseFloat amountTon).map fun d => dblFloor (mulDouble d dbl1e9)

/-- Template rendering of the nanoton amount (`NaN` stringifies as such). -/
def nanotonsStr (amountTon : String) : String :=
  match tonAmountNanotons amountTon with
  | some z => toString z
  | none => "NaN"

/-- `generateTonDeeplink` — build
`ton://transfer/DEST?amount=NANOTONS&text=COMMENT` with the amount converted
to nanotons (1 TON = 1e9 nanotons) and the comment URI-encoded. -/
def generateTonDeeplink (destination : String) (amountTon : String) (comment : String) : String :=
  "ton://transfer/" ++ destination ++ "?amount=" ++ nanotonsStr amountTon ++
    "&text=" ++ encodeURIComponent comment

/-- Modelled from the spec: the smallest-unit amount of section 4.3 —
multiply the decimal amount by `10 ^ 9` exactly and truncate toward zero.
This is the comparison point for the deeplink round-trip claim, not source
code. -/
def specNanotons (amountTon : String) : Option ℤ :=
  (parseDecimal amountTon).map fun p => ((p.1 * 10 ^ 9 / 10 ^ p.2 : ℕ) : ℤ)

/-! ## Structured MCP responses (`src/types.ts`, `StandardMCPResponse`)

Optional sub-objects; the top-level optional bid fields carry the spread of
a `MyBidInfo` record (`...bid`) in the get-my-bid handler. -/

structure BidInfoOut where
  bid_id : Option String := none
  ton_amount : Option String := none
  bid_price_ton : Option String := none
  estimated_token : Option ℚ := none
  current_auction_price : Option String := none
  tx_hash : Option String := none
  created_at : Option String := none
  expires_at : Option String := none
  expires_in_seconds : Option ℚ := none
  locked_price : Option String := none
  allocated_token : Option String := none
  final_price_ton : Option String := none
  refund_ton : Option String := none
deriving DecidableEq

structure PaymentOut where
  required : Option Bool := none
  confirmed : Option Bool := none
  recipient : Option String := none
  amount : Option String := none
  comment_required : Option String := none
  deeplink : Option String := none
  deeplink_instructions : Option String := none
  paymentId : Option String := none
  expires_in_seconds : Option ℚ := none
  network : Option String := none
  payer : Option String := none
  timestamp : Option ℚ := none
  signature : Option String := none
deriving DecidableEq

structure AuctionOut where
  auction_id : Option String := none
  status : Option String := none
  current_price_ton : Option String := none
  total_raised_ton : Option String := none
  progress_percent : Option String := none
  tokens_per_ton : Option ℚ := none
  mechanism : Option String := none
  target_ton : Option String := none
  final_price_ton : Option String := none
  closed_at : Option String := none
  reason : Option String := none
deriving DecidableEq

structure AllocationOut where
  success : Bool
  oversubscribed : Bool
  full_allocation : Bool
  pricing_model : String
deriving DecidableEq

structure RefundOut where
  processed : Bool
  transaction_fee_deducted : Bool
  refund_amount : Option String := none
deriving DecidableEq

structure PriceComparisonOut where
  locked_price : String
  current_price : Option String
  favorable : Bool
deriving DecidableEq

structure MCPResponse where
  status : Option String := none
  action_required : Option String := none
  urgency : Option String := none
  next_step : Option String := none
  wallet : Option String := none
  timestamp : Option String := none
  bid : Option BidInfoOut := none
  payment : Option PaymentOut := none
  auction : Option AuctionOut := none
  allocation : Option AllocationOut := none
  refund : Option RefundOut := none
  price_comparison : Option PriceComparisonOut := none
  bid_id : Option String := none
  ton_amount : Option String := none
  bid_price_ton : Option String := none
  allocated_token : Option String := none
  refund_ton : Option String := none
  tx_hash : Option String := none
  created_at : Option String := none
deriving DecidableEq

/-! ## Tool handlers (`src/handlers.ts`, `StandardMCPResponse` revision)

Each handler validates its inputs, then performs its network calls in
order.  The embedding receives, for each network call the handler can make,
the `(status, body)` pair that call would observe, and returns the thrown
error or the structured response together with the number of network calls
actually performed. -/

/-- A thrown JavaScript value: either `new Error(msg)` from validation /
shape checks, or the structured error object thrown by the API client. -/
inductive Thrown where
  | err (msg : String)
  | api (e : ApiErrObj)
deriving DecidableEq

/-- The urgency ternary used verbatim on every live payment countdown:
`expires_in < 60 ? critical : expires_in < 300 ? high : normal`. -/
def urgencyFor (expirySeconds : Option ℚ) : String :=
  if jsLtQ expirySeconds 60 then "critical"
  else if jsLtQ expirySeconds 300 then "high"
  else "normal"

/-- The wallet string as the handler reads it back (validated inputs are
always strings). -/
def jsStrOf : JSValue → String
  | .str s => s
  | _ => ""

/-- `Boolean(refund_ton && parseFloat(refund_ton) > 0)`. -/
def hasRefundOf (refund_ton : Option String) : Bool :=
  match refund_ton with
  | some s => if s = "" then false else parseFloatPos s
  | none => false

/-- The instruction string attached next to every deeplink. -/
def DEEPLINK_NOTE : String :=
  "Click this link to open your TON wallet app and complete the payment. This is a direct wallet link, not a QR code."

/-- The `payment_required` response of `handleCreateBid` (402 path, also
reached by a 200 body whose embedded status is unrecognized). -/
def createBidPaymentRequired (auctionInfo : Body) (bidData : Body) (nowIso : String) : MCPResponse :=
  { status := some "payment_required"
    action_required := some "payment"
    urgency := some (urgencyFor bidData.expires_in)
    bid := some
      { bid_id := bidData.bid_id
        ton_amount := bidData.ton_amount
        estimated_token := bidData.estimated_token
        expires_at := bidData.expiresAt
        expires_in_seconds := bidData.expires_in
        locked_price := bidData.current_price_ton
        created_at := some nowIso }
    auction := some
      { auction_id := auctionInfo.auction_id
        current_price_ton := auctionInfo.current_price_ton
        total_raised_ton := auctionInfo.total_raised_ton
        progress_percent := auctionInfo.progress_percent
        tokens_per_ton := auctionInfo.tokens_per_ton
        mechanism := some "pay-as-bid"
        status := auctionInfo.status
        target_ton := auctionInfo.target_ton }
    payment := some
      { required := some true
        recipient := bidData.pay_to
        amount := bidData.ton_amount
        comment_required := bidData.bid_id
        deeplink := bidData.tonconnect_universal_link
        deeplink_instructions := some DEEPLINK_NOTE
        paymentId := bidData.paymentId
        expires_in_seconds := bidData.expires_in
        network := some (jsOrStr bidData.network "TON") }
    next_step := some "send_payment"
    timestamp := some nowIso }

/-- `handleCreateBid` — validate amount and wallet, fetch the auction info,
create (or re-read) the bid, and classify the `(status, body)` outcome. -/
def handleCreateBid (tonAmount wallet : JSValue) (nowIso : String)
    (infoResp bidResp : ℤ × Body) : Except Thrown MCPResponse × ℕ :=
  match validateBidAmount tonAmount with
  | .error m => (.error (.err m), 0)
  | .ok _ =>
  match validateWallet wallet with
  | .error m => (.error (.err m), 0)
  | .ok _ =>
  match getAuctionInfo infoResp.1 infoResp.2 with
  | .error e => (.error (.api e), 1)
  | .ok auctionInfo =>
  match createBid bidResp.1 bidResp.2 with
  | .error e => (.error (.api e), 2)
  | .ok (status, data) =>
    if status = HTTP_STATUS.OK then
      match data.status with
      | none => (.error (.err "Invalid response: missing status field"), 2)
      | some st =>
        if st = "completed" then
          let currentPrice := auctionInfo.current_price_ton
          let bidPrice := jsOrStr data.bid_price_ton "0"
          (.ok
            { status := some "completed"
              action_required := some "wait"
              bid := some
                { bid_id := data.bid_id
                  ton_amount := data.ton_amount
                  bid_price_ton := data.bid_price_ton
                  estimated_token := data.estimated_token
                  current_auction_price := data.current_auction_price
                  tx_hash := data.tx_hash
                  created_at := data.created_at }
              payment := some
                { confirmed := some true
                  paymentId := data.paymentId
                  amount := data.amount
                  payer := data.payer
                  timestamp := data.timestamp
                  signature := data.signature }
              price_comparison := some
                { locked_price := bidPrice
                  current_price := currentPrice
                  favorable := dblGt (currentPrice.bind jsParseFloat) (jsParseFloat bidPrice) }
              auction := some { status := some "active" }
              next_step := some "wait_for_allocation" }, 2)
        else if st = "allocated" then
          let hasRefund := hasRefundOf data.refund_ton
          (.ok
            { status := some "allocated"
              action_required := some "none"
              bid := some
                { bid_id := data.bid_id
                  ton_amount := data.ton_amount
                  allocated_token := data.allocated_token
                  final_price_ton := data.final_price_ton
                  refund_ton := data.refund_ton
                  tx_hash := data.tx_hash }
              payment := some
                { confirmed := some true
                  paymentId := data.paymentId
                  amount := data.amount
                  payer := data.payer
                  timestamp := data.timestamp
                  signature := data.signature }
              allocation := some
                { success := true
                  oversubscribed := hasRefund
                  full_allocation := !hasRefund
                  pricing_model := "pay-as-bid" }
              auction := some { status := some "closed_successful" }
              next_step := some "check_wallet" }, 2)
        else if st = "refunded" then
          (.ok
            { status := some "refunded"
              action_required := some "none"
              bid := some
                { bid_id := data.bid_id
                  ton_amount := data.ton_amount
                  refund_ton := data.refund_ton
                  tx_hash := data.tx_hash }
              payment := some
                { confirmed := some true
                  paymentId := data.paymentId
                  amount := data.amount
                  payer := data.payer
                  timestamp := data.timestamp
                  signature := data.signature }
              auction := some { status := some "closed_failed", reason := some "target_not_reached" }
              refund := some { processed := true, transaction_fee_deducted := true }
              next_step := some "check_wallet" }, 2)
        else (.ok (createBidPaymentRequired auctionInfo data nowIso), 2)
    else (.ok (createBidPaymentRequired auctionInfo data nowIso), 2)

/-- The `payment_pending` response of `handleCheckBidById` (402 path). -/
def checkBidPaymentPending (data : Body) : MCPResponse :=
  { status := some "payment_pending"
    action_required := some "payment"
    urgency := some (urgencyFor data.expires_in)
    bid := some
      { bid_id := data.bid_id
        ton_amount := data.ton_amount
        estimated_token := data.estimated_token
        expires_at := data.expiresAt
        expires_in_seconds := data.expires_in
        locked_price := data.current_price_ton }
    payment := some
      { required := some true
        recipient := data.pay_to
        amount := data.ton_amount
        comment_required := data.bid_id
        deeplink := data.tonconnect_universal_link
        deeplink_instructions := some DEEPLINK_NOTE
        expires_in_seconds := data.expires_in }
    next_step := some "send_payment" }

/-- `handleCheckBidById` — validate the bid id, look the bid up, and map the
three valid statuses (402 payment pending, 410 auction closed, 200 existing
record) to their structured responses. -/
def handleCheckBidById (bidId : JSValue) (resp : ℤ × Body) : Except Thrown MCPResponse × ℕ :=
  match validateBidId bidId with
  | .error m => (.error (.err m), 0)
  | .ok _ =>
  match checkBidById resp.1 resp.2 with
  | .error e => (.error (.api e), 1)
  | .ok (status, data) =>
    if status = HTTP_STATUS.PAYMENT_REQUIRED then
      (.ok (checkBidPaymentPending data), 1)
    else if status = HTTP_STATUS.GONE then
      (.ok
        { status := some "auction_closed"
          action_required := some "none"
          auction := some
            { status := some "closed"
              final_price_ton := data.final_price_ton
              closed_at := data.closed_at }
          next_step := some "check_my_bid" }, 1)
    else
      match data.status with
      | none => (.error (.err "Invalid response: missing status field"), 1)
      | some st =>
        (.ok
          { status := some (jsOrStr (some st) "unknown")
            action_required := some (if st = "pending" then "payment" else "none") }, 1)

/-- The spread `...bid` of a `MyBidInfo` record into the response. -/
def spreadMyBid (bid : Body) : MCPResponse :=
  { status := bid.status
    bid_id := bid.bid_id
    ton_amount := bid.ton_amount
    bid_price_ton := bid.bid_price_ton
    allocated_token := bid.allocated_token
    refund_ton := bid.refund_ton
    tx_hash := bid.tx_hash
    created_at := bid.created_at }

/-- The status dispatch of `handleGetMyBid` after any pending-payment
enrichment failed to apply (completed / allocated / refunded / expired /
pass-through). -/
def myBidStatusResponse (bid : Body) (walletStr : String) (nowIso : String) : MCPResponse :=
  if bid.status = some "completed" then
    { spreadMyBid bid with
        wallet := some walletStr
        action_required := some "wait"
        payment := some { confirmed := some true }
        next_step := some "wait_for_allocation"
        timestamp := some nowIso }
  else if bid.status = some "allocated" then
    let hasRefund := hasRefundOf bid.refund_ton
    { spreadMyBid bid with
        wallet := some walletStr
        action_required := some "none"
        allocation := some
          { success := true
            oversubscribed := hasRefund
            full_allocation := !hasRefund
            pricing_model := "pay-as-bid" }
        next_step := some "check_wallet"
        timestamp := some nowIso }
  else if bid.status = some "refunded" then
    { spreadMyBid bid with
        wallet := some walletStr
        action_required := some "none"
        auction := some { status := some "failed", reason := some "target_not_reached" }
        refund := some
          { processed := true
            transaction_fee_deducted := true
            refund_amount := bid.refund_ton }
        next_step := some "check_wallet"
        timestamp := some nowIso }
  else if bid.status = some "expired" then
    { spreadMyBid bid with
        wallet := some walletStr
        action_required := some "create_new_bid"
        next_step := some "create_new_bid" }
  else
    { spreadMyBid bid with
        wallet := some walletStr
        action_required := some "unknown" }

/-- `handleGetMyBid` — validate the wallet and fetch its bid; a pending bid
triggers a second lookup by id to enrich the response with payment
instructions; every thrown error (the expected no-bid 404 included) is
rethrown by the surrounding catch. -/
def handleGetMyBid (wallet : JSValue) (nowIso : String)
    (myBidResp checkResp : ℤ × Body) : Except Thrown MCPResponse × ℕ :=
  match validateWallet wallet with
  | .error m => (.error (.err m), 0)
  | .ok _ =>
  let walletStr := jsStrOf wallet
  match getMyBid myBidResp.1 myBidResp.2 with
  | .error e => (.error (.api e), 1)
  | .ok bid =>
    if bid.status = some "pending" then
      match checkBidById checkResp.1 checkResp.2 with
      | .error e => (.error (.api e), 2)
      | .ok (status, data) =>
        if status = HTTP_STATUS.PAYMENT_REQUIRED ∧ (truthyStr data.pay_to).isSome then
          (.ok
            { spreadMyBid bid with
                action_required := some "payment"
                urgency := some (urgencyFor data.expires_in)
                wallet := some walletStr
                payment := some
                  { required := some true
                    recipient := data.pay_to
                    amount := bid.ton_amount
                    comment_required := bid.bid_id
                    deeplink := data.tonconnect_universal_link
                    deeplink_instructions := some DEEPLINK_NOTE
                    expires_in_seconds := data.expires_in }
                next_step := some "send_payment" }, 2)
        else (.ok (myBidStatusResponse bid walletStr nowIso), 2)
    else (.ok (myBidStatusResponse bid walletStr nowIso), 1)

/-! ## Structured error formatting (`src/index.ts`, `formatError`) -/

/-- The fields `formatError` reads off the caught value (`ApiError` cast):
all optional, since the caught value may be a plain `Error`. -/
structure ApiErrorLoose where
  message : Option String := none
  error : Option String := none
  code : Option ℤ := none
  status : Option ℤ := none
  details : Option Body := none
deriving DecidableEq

/-- View of a thrown value through the `ApiError` interface. -/
def Thrown.toLoose : Thrown → ApiErrorLoose
  | .err m => { message := some m }
  | .api e => { message := some e.message, error := some e.error, code := some e.code, details := e.details }

/-- `errorCode` is a number-or-string union (`apiError.code ||
apiError.error || UNKNOWN_ERROR`). -/
inductive CodeV where
  | num (n : ℤ)
  | str (s : String)
deriving DecidableEq

/-- `String(errorCode)`. -/
def CodeV.render : CodeV → String
  | .num n => toString n
  | .str s => s

/-- The structured error body the server returns (with `isError: true` on
the enclosing content). -/
structure ErrorResponse where
  error : String
  message : String
  code : ℤ
  details : Option Body := none
  retryable : Bool
  action_required : Option String := none
deriving DecidableEq

/-- `formatError` — machine-readable code, http status, retryability flag
(`status ≥ 500` or `429`), and action hints for the known error tags. -/
def formatError (apiError : ApiErrorLoose) : ErrorResponse :=
  let errorMessage := jsOrStr apiError.message (jsOrStr apiError.error "An error occurred")
  let errorCode : CodeV :=
    match truthyInt apiError.code with
    | some n => .num n
    | none =>
      match truthyStr apiError.error with
      | some s => .str s
      | none => .str "UNKNOWN_ERROR"
  let httpStatus : ℤ := ((truthyInt apiError.code).getD ((truthyInt apiError.status).getD 500))
  let retryable : Bool := decide (500 ≤ httpStatus) || decide (httpStatus = 429)
  let hint : Option String :=
    if errorCode = .str "no_active_auction" ∨ errorCode = .str "no_auction" then some "check_auction_status"
    else if errorCode = .str "invalid_amount" then some "adjust_amount"
    else if errorCode = .str "auction_closed" then some "check_auction_status"
    else if errorCode = .str "bid_not_found" then some "verify_bid_id"
    else none
  { error := errorCode.render
    message := errorMessage
    code := httpStatus
    details := apiError.details
    retryable := retryable
    action_required := hint }

/-! ## Tool-call pipeline (`src/index.ts`, `CallToolRequestSchema` handler)

A handler result is serialized with `formatResponse`; a thrown value is
serialized with `formatError` and flagged `isError: true`.  Nothing is ever
retried: the handler runs exactly once per tool call. -/

/-- What one tool call returns to the agent. -/
inductive ToolOutcome where
  | success (r : MCPResponse)
  | failure (e : ErrorResponse)
deriving DecidableEq

/-- The `isError` flag on the returned content. -/
def ToolOutcome.isError : ToolOutcome → Bool
  | .success _ => false
  | .failure _ => true

/-- Wrap a handler result the way the request dispatcher does. -/
def dispatch (r : Except Thrown MCPResponse) : ToolOutcome :=
  match r with
  | .ok res => .success res
  | .error t => .failure (formatError t.toLoose)

/-- The `get_my_bid` tool end to end: handler plus error formatting. -/
def callToolGetMyBid (wallet : JSValue) (nowIso : String)
    (myBidResp checkResp : ℤ × Body) : ToolOutcome :=
  dispatch (handleGetMyBid wallet nowIso myBidResp checkResp).1

/-- The `check_bid_status` tool end to end. -/
def callToolCheckBidStatus (bidId : JSValue) (resp : ℤ × Body) : ToolOutcome :=
  dispatch (handleCheckBidById bidId resp).1

/-- The `create_auction_bid` tool end to end. -/
def callToolCreateBid (tonAmount wallet : JSValue) (nowIso : String)
    (infoResp bidResp : ℤ × Body) : ToolOutcome :=
  dispatch (handleCreateBid tonAmount wallet nowIso infoResp bidResp).1

/-! ## Support lemmas for the binary64 model -/

theorem bitLenF_zero (f : ℕ) : bitLenF f 0 = 0 := by
  cases f <;> simp [bitLenF]

theorem bitLenF_spec : ∀ f n, n ≤ f → n ≠ 0 →
    2 ^ (bitLenF f n - 1) ≤ n ∧ n < 2 ^ bitLenF f n := by
  intro f
  induction f with
  | zero => intro n hn h0; omega
  | succ f ih =>
    intro n hn h0
    rw [bitLenF, if_neg h0]
    by_cases h1 : n = 1
    · subst h1
      simp [bitLenF_zero]
    · have hd : n / 2 ≠ 0 := by omega
      have hf : n / 2 ≤ f := by omega
      obtain ⟨ha, hb⟩ := ih (n / 2) hf hd
      set a := bitLenF f (n / 2) with hadef
      have hage : 1 ≤ a := by
        by_contra hc
        have : a = 0 := by omega
        rw [this] at hb
        simp at hb
        omega
      have hsplit : 2 ^ a = 2 ^ (a - 1) * 2 := by
        rw [← pow_succ]
        congr 1
        omega
      constructor
      · rw [Nat.add_sub_cancel]
        omega
      · have h2 : 2 ^ (a + 1) = 2 ^ a * 2 := pow_succ 2 a
        omega

theorem bitLen_spec (n : ℕ) (h : n ≠ 0) :
    2 ^ (bitLen n - 1) ≤ n ∧ n < 2 ^ bitLen n :=
  bitLenF_spec n n le_rfl h

theorem bitLen_pos (n : ℕ) (h : n ≠ 0) : 1 ≤ bitLen n := by
  by_contra hc
  have h0 : bitLen n = 0 := by omega
  have := (bitLen_spec n h).2
  rw [h0] at this
  simp at this
  omega

theorem natCast_pow_two (k : ℕ) : ((2 ^ k : ℕ) : ℚ) = (2 : ℚ) ^ (k : ℤ) := by
  rw [zpow_natCast]
  push_cast
  rfl

theorem declt_true_iff (n d : ℕ) (L : ℤ) :
    declt n d L = true ↔ (n : ℚ) < (2 : ℚ) ^ L * d := by
  unfold declt
  split
  next hL =>
    rw [decide_eq_true_iff]
    rw [show (2 : ℚ) ^ L = ((2 ^ L.toNat : ℕ) : ℚ) from by
      rw [natCast_pow_two, Int.toNat_of_nonneg hL]]
    rw [← Nat.cast_mul, Nat.cast_lt, mul_comm]
  next hL =>
    rw [decide_eq_true_iff]
    have hkpos : (0 : ℚ) < ((2 ^ (-L).toNat : ℕ) : ℚ) := by positivity
    rw [show (2 : ℚ) ^ L = (((2 ^ (-L).toNat : ℕ) : ℚ))⁻¹ from by
      rw [natCast_pow_two, ← zpow_neg]
      congr 1
      omega]
    rw [inv_mul_eq_div, lt_div_iff₀ hkpos, ← Nat.cast_mul, Nat.cast_lt]

theorem binadeExp_le (n d : ℕ) (hn : n ≠ 0) (hd : d ≠ 0) :
    (2 : ℚ) ^ binadeExp n d * d ≤ n := by
  obtain ⟨hn1, _⟩ := bitLen_spec n hn
  obtain ⟨_, hd2⟩ := bitLen_spec d hd
  have han : 1 ≤ bitLen n := bitLen_pos n hn
  simp only [binadeExp]
  split
  next hlt =>
    have hdq : (d : ℚ) ≤ (2 : ℚ) ^ (bitLen d : ℤ) := by
      rw [← natCast_pow_two]
      exact_mod_cast hd2.le
    have hnq : (2 : ℚ) ^ ((bitLen n : ℤ) - 1) ≤ (n : ℚ) := by
      have hcast : (2 : ℚ) ^ ((bitLen n : ℤ) - 1) = ((2 ^ (bitLen n - 1) : ℕ) : ℚ) := by
        rw [natCast_pow_two]
        congr 1
        omega
      rw [hcast]
      exact_mod_cast hn1
    calc (2 : ℚ) ^ ((bitLen n : ℤ) - (bitLen d : ℤ) - 1) * d
        ≤ (2 : ℚ) ^ ((bitLen n : ℤ) - (bitLen d : ℤ) - 1) * (2 : ℚ) ^ (bitLen d : ℤ) := by
          apply mul_le_mul_of_nonneg_left hdq
          positivity
      _ = (2 : ℚ) ^ ((bitLen n : ℤ) - 1) := by
          rw [← zpow_add₀ (by norm_num : (2 : ℚ) ≠ 0)]
          congr 1
          ring
      _ ≤ (n : ℚ) := hnq
  next hge =>
    have h1 : ¬ ((n : ℚ) < (2 : ℚ) ^ ((bitLen n : ℤ) - (bitLen d : ℤ)) * d) := fun hc =>
      hge ((declt_true_iff n d ((bitLen n : ℤ) - (bitLen d : ℤ))).mpr hc)
    exact not_lt.mp h1

theorem rheNat_div_le (a b : ℕ) : a / b ≤ rheNat a b := by
  simp only [rheNat]
  split_ifs <;> omega

theorem rheNat_pos (a b : ℕ) (hb : b ≠ 0) (h : b ≤ a) : 1 ≤ rheNat a b := by
  have h1 : 1 ≤ a / b := (Nat.one_le_div_iff (Nat.pos_of_ne_zero hb)).2 h
  exact le_trans h1 (rheNat_div_le a b)

theorem decToDouble_zero (f : ℕ) : decToDouble 0 f = ⟨0, 0⟩ := by
  simp [decToDouble]

/-- The sign of `parseFloat` is exact for every positive decimal value down
to the smallest subnormal (`2 ^ (-1074)`): the rounded double is positive. -/
theorem decToDouble_sig_pos (n f : ℕ) (hn : n ≠ 0)
    (hbig : (10 : ℕ) ^ f ≤ n * 2 ^ 1074) :
    1 ≤ (decToDouble n f).sig := by
  have hd : (10 : ℕ) ^ f ≠ 0 := by positivity
  have hkey : (2 : ℚ) ^ (max (binadeExp n (10 ^ f) - 52) (-1074 : ℤ)) * ((10 ^ f : ℕ) : ℚ)
      ≤ (n : ℚ) := by
    rcases max_cases (binadeExp n (10 ^ f) - 52) (-1074 : ℤ) with ⟨hmax, _⟩ | ⟨hmax, _⟩
    · rw [hmax]
      calc (2 : ℚ) ^ (binadeExp n (10 ^ f) - 52) * ((10 ^ f : ℕ) : ℚ)
          ≤ (2 : ℚ) ^ binadeExp n (10 ^ f) * ((10 ^ f : ℕ) : ℚ) := by
            apply mul_le_mul_of_nonneg_right _ (by positivity)
            exact zpow_le_zpow_right₀ (by norm_num) (by omega)
        _ ≤ (n : ℚ) := binadeExp_le n (10 ^ f) hn hd
    · rw [hmax]
      have h1074 : (0 : ℚ) < ((2 ^ 1074 : ℕ) : ℚ) := by positivity
      rw [show ((2 : ℚ) ^ (-1074 : ℤ)) = (((2 ^ 1074 : ℕ) : ℚ))⁻¹ from by
        rw [natCast_pow_two, ← zpow_neg]
        norm_num]
      rw [inv_mul_eq_div, div_le_iff₀ h1074, ← Nat.cast_mul]
      exact_mod_cast hbig
  simp only [decToDouble, if_neg hn]
  split
  next hu =>
    apply rheNat_pos
    · positivity
    · rw [show (2 : ℚ) ^ (max (binadeExp n (10 ^ f) - 52) (-1074 : ℤ)) =
          ((2 ^ (max (binadeExp n (10 ^ f) - 52) (-1074 : ℤ)).toNat : ℕ) : ℚ) from by
        rw [natCast_pow_two, Int.toNat_of_nonneg hu]] at hkey
      rw [← Nat.cast_mul, Nat.cast_le] at hkey
      rw [Nat.mul_comm]
      exact hkey
  next hu =>
    apply rheNat_pos _ _ hd
    have hkpos : (0 : ℚ) <
        ((2 ^ (-(max (binadeExp n (10 ^ f) - 52) (-1074 : ℤ))).toNat : ℕ) : ℚ) := by positivity
    rw [show (2 : ℚ) ^ (max (binadeExp n (10 ^ f) - 52) (-1074 : ℤ)) =
        (((2 ^ (-(max (binadeExp n (10 ^ f) - 52) (-1074 : ℤ))).toNat : ℕ) : ℚ))⁻¹ from by
      rw [natCast_pow_two, ← zpow_neg]
      congr 1
      omega] at hkey
    rw [inv_mul_eq_div, div_le_iff₀ hkpos, ← Nat.cast_mul, Nat.cast_le] at hkey
    exact hkey

theorem parseFloatPos_iff (s : String) (n f : ℕ)
    (hp : parseDecimal s = some (n, f))
    (hbig : n = 0 ∨ (10 : ℕ) ^ f ≤ n * 2 ^ 1074) :
    parseFloatPos s = true ↔ 0 < n := by
  unfold parseFloatPos jsParseFloat
  rw [hp]
  simp only [Option.map_some']
  rw [decide_eq_true_iff]
  constructor
  · intro h
    by_contra hc
    have h0 : n = 0 := by omega
    rw [h0, decToDouble_zero] at h
    exact absurd h (by simp)
  · intro h
    rcases hbig with h0 | hb
    · omega
    · have := decToDouble_sig_pos n f (by omega) hb
      omega

theorem hasRefundOf_iff (s : String) (n f : ℕ)
    (hp : parseDecimal s = some (n, f))
    (hbig : n = 0 ∨ (10 : ℕ) ^ f ≤ n * 2 ^ 1074) :
    hasRefundOf (some s) = true ↔ 0 < n := by
  have hne : s ≠ "" := by
    rintro rfl
    rw [show parseDecimal "" = none from rfl] at hp
    exact Option.noConfusion hp
  simp only [hasRefundOf]
  rw [if_neg hne]
  exact parseFloatPos_iff s n f hp hbig

theorem decValue_pos_iff (n f : ℕ) :
    (0 : ℚ) < (n : ℚ) / (10 : ℚ) ^ f ↔ 0 < n := by
  have hd : (0 : ℚ) < (10 : ℚ) ^ f := by positivity
  rw [lt_div_iff₀ hd, zero_mul, Nat.cast_pos]

theorem storeGet_storeSet (st : CalmStore) (k : String) (td : TokenData) :
    storeGet (storeSet st k td) k = some td := by
  induction st with
  | nil => simp [storeGet, storeSet]
  | cons hd tl ih =>
    obtain ⟨k2, v⟩ := hd
    by_cases h : k2 = k
    · simp [storeGet, storeSet, h]
    · simp [storeGet, storeSet, h, ih]

theorem except_isOk_exists {ε α : Type} (x : Except ε α) (h : x.isOk = true) :
    ∃ a, x = .ok a := by
  cases x with
  | error e => simp [Except.isOk, Except.toBool] at h
  | ok a => exact ⟨a, rfl⟩

/-! ## The claims -/

/-- C5: `validateAmount(a)` succeeds exactly when `a` is a finite number
with `1 ≤ a ≤ 100`; every other input — non-number, NaN, infinite, or out
of bounds — fails, and the bounds themselves are accepted (the iff at
`q = 1` and `q = 100` holds). -/
theorem claim5_validate_amount (v : JSValue) :
    (validateBidAmount v).isOk = true ↔ ∃ q : ℚ, v = .num (.fin q) ∧ 1 ≤ q ∧ q ≤ 100 := by
  cases v with
  | undef => simp [validateBidAmount, Except.isOk, Except.toBool]
  | str s => simp [validateBidAmount, Except.isOk, Except.toBool]
  | other => simp [validateBidAmount, Except.isOk, Except.toBool]
  | num x =>
    cases x with
    | nan => simp [validateBidAmount, JSNum.isNaN, Except.isOk, Except.toBool]
    | inf =>
      simp only [validateBidAmount, JSNum.isNaN, JSNum.ltb, Bool.false_or,
        Bool.or_true, if_true, if_false, Bool.false_eq_true, ite_false]
      constructor
      · intro h
        simp [Except.isOk, Except.toBool] at h
      · rintro ⟨q, hq, -⟩
        exact absurd hq (by simp)
    | ninf =>
      simp only [validateBidAmount, JSNum.isNaN, JSNum.ltb, Bool.true_or,
        if_true, if_false, Bool.false_eq_true, ite_false]
      constructor
      · intro h
        simp [Except.isOk, Except.toBool] at h
      · rintro ⟨q, hq, -⟩
        exact absurd hq (by simp)
    | fin q =>
      simp only [validateBidAmount, JSNum.isNaN, JSNum.ltb, Bool.false_eq_true,
        ite_false, Bool.or_eq_true, decide_eq_true_eq]
      split_ifs with h
      · constructor
        · intro hc
          simp [Except.isOk, Except.toBool] at hc
        · rintro ⟨q2, hq2, h1, h2⟩
          injection hq2 with hx
          injection hx with hq
          subst hq
          rcases h with h | h
          · exact absurd h1 (by push_neg; simpa [BID_LIMITS.MIN_TON] using h)
          · exact absurd h2 (by push_neg; simpa [BID_LIMITS.MAX_TON] using h)
      · push_neg at h
        obtain ⟨h1, h2⟩ := h
        constructor
        · intro _
          refine ⟨q, rfl, ?_, ?_⟩
          · simpa [BID_LIMITS.MIN_TON] using h1
          · simpa [BID_LIMITS.MAX_TON] using h2
        · intro _
          rfl

/-- C6 counterexample: `clampLimit` does not always return an integer — the
in-range fractional input `5/2` is returned unchanged, and `5/2` is not an
integer.  (The bounds and the default of the claim do hold; see the amended
theorem.) -/
theorem claim6_counterexample :
    validateLimit (.num (.fin (mkRat 5 2))) = .fin (mkRat 5 2) ∧
    ∀ z : ℤ, (mkRat 5 2 : ℚ) ≠ (z : ℚ) := by
  constructor
  · decide
  · intro z hz
    have hd := congrArg Rat.den hz
    rw [Rat.den_intCast] at hd
    have h2 : (mkRat 5 2).den = 2 := by decide
    rw [h2] at hd
    exact absurd hd (by norm_num)

/-- C6 amended: `clampLimit` never fails and always returns a usable
number `r` with `1 ≤ r ≤ 100` (an integer whenever its input is one, but
fractional in-range inputs are passed through unrounded), and
`clampLimit(undefined) = 20`. -/
theorem claim6_amended :
    (∀ v : JSValue, ∃ q : ℚ, validateLimit v = .fin q ∧ 1 ≤ q ∧ q ≤ 100) ∧
    validateLimit .undef = .fin 20 := by
  constructor
  · intro v
    cases v with
    | undef => exact ⟨20, rfl, by norm_num⟩
    | str s => exact ⟨20, rfl, by norm_num⟩
    | other => exact ⟨20, rfl, by norm_num⟩
    | num x =>
      cases x with
      | nan => exact ⟨20, rfl, by norm_num⟩
      | inf => exact ⟨100, by decide, by norm_num⟩
      | ninf => exact ⟨20, by decide, by norm_num⟩
      | fin q =>
        simp only [validateLimit, JSNum.isNaN, JSNum.ltb, Bool.false_eq_true,
          ite_false, decide_eq_true_eq]
        split_ifs with h
        · exact ⟨20, rfl, by norm_num⟩
        · push_neg at h
          refine ⟨min q 100, by simp [JSNum.minJS, MAX_BIDS_LIMIT], ?_, ?_⟩
          · exact le_min h (by norm_num)
          · exact min_le_right _ _
  · rfl

/-- C4: every surfaced error response carries the originating HTTP status
as its machine-readable `code` and a retryability flag that is true exactly
when that status is 429 or at least 500; thrown errors always surface as
`isError` tool results, and no handler ever issues more network calls than
its straight-line maximum (nothing is retried). -/
theorem claim4_retryable :
    (∀ e : ApiErrorLoose,
      ((formatError e).retryable = true ↔
        ((formatError e).code = 429 ∨ 500 ≤ (formatError e).code))) ∧
    (∀ eo : ApiErrObj, eo.code ≠ 0 →
      (formatError (Thrown.api eo).toLoose).code = eo.code) ∧
    (∀ t : Thrown, (dispatch (.error t)).isError = true) ∧
    (∀ a w nIso i b, (handleCreateBid a w nIso i b).2 ≤ 2) ∧
    (∀ bd r, (handleCheckBidById bd r).2 ≤ 1) ∧
    (∀ w nIso m c, (handleGetMyBid w nIso m c).2 ≤ 2) := by
  refine ⟨?_, ?_, ?_, ?_, ?_, ?_⟩
  · intro e
    simp only [formatError]
    constructor
    · intro h
      rcases Bool.or_eq_true_iff.mp h with h5 | h4
      · right
        exact decide_eq_true_iff.mp h5
      · left
        exact decide_eq_true_iff.mp h4
    · intro h
      rcases h with h4 | h5
      · simp [h4]
      · simp [h5]
  · intro eo hne
    simp [formatError, Thrown.toLoose, truthyInt, hne]
  · intro t
    simp [dispatch, ToolOutcome.isError]
  · intro a w nIso i b
    unfold handleCreateBid
    rcases validateBidAmount a with m | u
    · simp
    · rcases validateWallet w with m | u2
      · simp
      · rcases getAuctionInfo i.1 i.2 with e | info
        · simp
        · rcases createBid b.1 b.2 with e | sd
          · simp
          · obtain ⟨st, dat⟩ := sd
            simp only
            split_ifs <;> first
              | simp
              | (rcases dat.status with _ | s <;> (simp; try split_ifs <;> simp))
  · intro bd r
    unfold handleCheckBidById
    rcases validateBidId bd with m | u
    · simp
    · rcases checkBidById r.1 r.2 with e | sd
      · simp
      · obtain ⟨st, dat⟩ := sd
        simp only
        split_ifs <;> first
          | simp
          | (rcases dat.status with _ | s <;> simp)
  · intro w nIso m c
    unfold handleGetMyBid
    rcases validateWallet w with m2 | u
    · simp
    · rcases getMyBid m.1 m.2 with e | bid
      · simp
      · simp only
        split_ifs with h
        · rcases checkBidById c.1 c.2 with e | sd
          · simp
          · obtain ⟨st, dat⟩ := sd
            simp only
            split_ifs <;> simp
        · simp

/-- C4 witness: the thrown 404 object surfaces with its own status as the
machine-readable code. -/
theorem claim4_witness :
    (formatError (Thrown.api ⟨404, "bid_not_found", "m", none⟩).toLoose).code = 404 :=
  claim4_retryable.2.1 ⟨404, "bid_not_found", "m", none⟩ (by decide)

/-- C1 counterexample: a `(404, empty body)` answer on the get-bid-by-wallet
operation is NOT classified as a non-error absence — the `get_my_bid` tool
call surfaces it as an error result (`isError = true`), contradicting the
claim that a 404 there is never surfaced as an error. -/
theorem claim1_counterexample :
    (callToolGetMyBid (.str "UQDEMO") "t0" (404, {}) (200, {})).isError = true := by
  decide

/-- C1 amended: the two endpoint kinds give the same status code 404
endpoint-dependent error *tags*, not different error-ness: check-bid-by-id
classifies `(404, b)` as the thrown error `bid_not_found`, while
get-bid-by-wallet classifies `(404, b)` as a thrown error whose tag comes
from the body (or `api_error`), and the `get_my_bid` tool surfaces that
error to the caller (`isError = true`); the "no bid yet" absence reading is
documentation for the caller, not a non-error outcome of the classifier. -/
theorem claim1_amended (b : Body) :
    (∃ e : ApiErrObj, checkBidById 404 b = .error e ∧ e.error = "bid_not_found" ∧ e.code = 404) ∧
    (∃ e : ApiErrObj, getMyBid 404 b = .error e ∧ e.code = 404 ∧
      e.error = jsOrStr b.error "api_error") ∧
    (∀ (w : JSValue) (nowIso : String) (checkResp : ℤ × Body),
      (validateWallet w).isOk = true →
      (callToolGetMyBid w nowIso (404, b) checkResp).isError = true) := by
  refine ⟨?_, ?_, ?_⟩
  · refine ⟨⟨404, "bid_not_found", jsOrStr b.message "Bid ID not found", some b⟩, ?_, rfl, rfl⟩
    simp [checkBidById, HTTP_STATUS.NOT_FOUND]
  · refine ⟨⟨404, jsOrStr b.error "api_error", jsOrStr b.message "API request failed", some b⟩,
      ?_, rfl, rfl⟩
    simp [getMyBid, HTTP_STATUS.OK]
  · intro w nowIso checkResp hw
    obtain ⟨u, hu⟩ := except_isOk_exists _ hw
    unfold callToolGetMyBid handleGetMyBid
    rw [hu]
    have hg : getMyBid 404 b = .error
        ⟨404, jsOrStr b.error "api_error", jsOrStr b.message "API request failed", some b⟩ := by
      simp [getMyBid, HTTP_STATUS.OK]
    rw [hg]
    rfl

/-- C1 amended witness at a concrete wallet and empty body. -/
theorem claim1_amended_witness :
    (callToolGetMyBid (.str "UQWITNESS") "t1" (404, {}) (200, {})).isError = true :=
  (claim1_amended {}).2.2 (.str "UQWITNESS") "t1" (200, {}) (by decide)

/-- C7: an invalid amount makes `handleCreateBid` fail with the local
validation error before any network call (zero calls performed), and the
transport is only ever reached once both the amount and the wallet
validation succeed. -/
theorem claim7_validation_before_network :
    (∀ (a w : JSValue) (nIso : String) (i b : ℤ × Body),
      (validateBidAmount a).isOk = false →
        (handleCreateBid a w nIso i b).2 = 0 ∧
        ∃ m, (handleCreateBid a w nIso i b).1 = .error (.err m)) ∧
    (∀ (a w : JSValue) (nIso : String) (i b : ℤ × Body),
      1 ≤ (handleCreateBid a w nIso i b).2 →
        (validateBidAmount a).isOk = true ∧ (validateWallet w).isOk = true) := by
  constructor
  · intro a w nIso i b hbad
    unfold handleCreateBid
    rcases hva : validateBidAmount a with m | u
    · exact ⟨rfl, m, rfl⟩
    · rw [hva] at hbad
      simp [Except.isOk, Except.toBool] at hbad
  · intro a w nIso i b h1
    unfold handleCreateBid at h1
    rcases hva : validateBidAmount a with m | u
    · rw [hva] at h1
      simp at h1
    · rw [hva] at h1
      rcases hvw : validateWallet w with m | u2
      · rw [hvw] at h1
        simp at h1
      · exact ⟨by simp [hva, Except.isOk, Except.toBool],
          by simp [hvw, Except.isOk, Except.toBool]⟩

/-- C7 witness: amount 150 with a well-formed wallet fails locally with
zero network calls. -/
theorem claim7_witness :
    (handleCreateBid (.num (.fin 150)) (.str "UQW7") "t7" (200, {}) (402, {})).2 = 0 ∧
    ∃ m, (handleCreateBid (.num (.fin 150)) (.str "UQW7") "t7" (200, {}) (402, {})).1 =
      .error (.err m) :=
  claim7_validation_before_network.1 (.num (.fin 150)) (.str "UQW7") "t7" (200, {}) (402, {})
    (by decide)

/-- C9: a 200 existing-bid record whose embedded status is none of
completed / allocated / refunded / expired / pending is passed through
(status preserved, no rejection): `check_bid_status` answers it with
`action_required = none` and `get_my_bid` with `action_required = unknown`.
(For the check-by-id handler an empty-string status would be normalized to
the literal `unknown`, hence the non-empty hypothesis.) -/
theorem claim9_unknown_status (bid : Body) (st : String) (bidIdv w : JSValue)
    (nowIso : String) (checkResp : ℤ × Body)
    (hst : bid.status = some st) (hne : st ≠ "")
    (h1 : st ≠ "completed") (h2 : st ≠ "allocated") (h3 : st ≠ "refunded")
    (h4 : st ≠ "expired") (h5 : st ≠ "pending")
    (hid : (validateBidId bidIdv).isOk = true) (hw : (validateWallet w).isOk = true) :
    (∃ r, (handleCheckBidById bidIdv (200, bid)).1 = .ok r ∧
      r.status = some st ∧ r.action_required = some "none") ∧
    (∃ r, (handleGetMyBid w nowIso (200, bid) checkResp).1 = .ok r ∧
      r.status = some st ∧ r.action_required = some "unknown") := by
  obtain ⟨u1, hu1⟩ := except_isOk_exists _ hid
  obtain ⟨u2, hu2⟩ := except_isOk_exists _ hw
  constructor
  · unfold handleCheckBidById
    rw [hu1]
    have hc : checkBidById 200 bid = .ok (200, bid) := by
      simp [checkBidById, HTTP_STATUS.NOT_FOUND, HTTP_STATUS.OK,
        HTTP_STATUS.PAYMENT_REQUIRED, HTTP_STATUS.GONE]
    rw [hc]
    simp only [HTTP_STATUS.PAYMENT_REQUIRED, HTTP_STATUS.GONE]
    rw [if_neg (by norm_num), if_neg (by norm_num), hst]
    refine ⟨_, rfl, ?_, ?_⟩
    · simp [jsOrStr, hne]
    · simp [h5]
  · have hg : getMyBid 200 bid = .ok bid := by simp [getMyBid, HTTP_STATUS.OK]
    have hnp : ¬ (bid.status = some "pending") := by
      rw [hst]
      simp [h5]
    refine ⟨myBidStatusResponse bid (jsStrOf w) nowIso, ?_, ?_, ?_⟩
    · simp only [handleGetMyBid, hu2, hg]
      rw [if_neg hnp]
    · simp [myBidStatusResponse, spreadMyBid, hst, h1, h2, h3, h4]
    · simp [myBidStatusResponse, spreadMyBid, hst, h1, h2, h3, h4]

/-- C9 witness: the unrecognized status string `finalizing`. -/
theorem claim9_witness :
    (∃ r, (handleCheckBidById (.str "bid_w9")
        (200, ({ status := some "finalizing" } : Body))).1 = .ok r ∧
      r.status = some "finalizing" ∧ r.action_required = some "none") ∧
    (∃ r, (handleGetMyBid (.str "UQW9") "t9"
        (200, ({ status := some "finalizing" } : Body)) (200, {})).1 = .ok r ∧
      r.status = some "finalizing" ∧ r.action_required = some "unknown") :=
  claim9_unknown_status { status := some "finalizing" } "finalizing" (.str "bid_w9")
    (.str "UQW9") "t9" (200, {}) rfl (by decide) (by decide) (by decide) (by decide)
    (by decide) (by decide) (by decide) (by decide)

/-- The three-way characterization of the urgency ternary. -/
theorem urgencyFor_iff (e : ℚ) :
    (urgencyFor (some e) = "critical" ↔ e < 60) ∧
    (urgencyFor (some e) = "high" ↔ 60 ≤ e ∧ e < 300) ∧
    (urgencyFor (some e) = "normal" ↔ 300 ≤ e) := by
  simp only [urgencyFor, jsLtQ, decide_eq_true_eq]
  split_ifs with h60 h300
  · exact ⟨⟨fun _ => h60, fun _ => rfl⟩,
      ⟨fun h => absurd h (by decide), fun hc => absurd h60 (not_lt.mpr hc.1)⟩,
      ⟨fun h => absurd h (by decide), fun h => absurd h60 (not_lt.mpr (by linarith))⟩⟩
  · exact ⟨⟨fun h => absurd h (by decide), fun hc => absurd hc h60⟩,
      ⟨fun _ => ⟨not_lt.mp h60, h300⟩, fun _ => rfl⟩,
      ⟨fun h => absurd h (by decide), fun h => absurd h300 (not_lt.mpr h)⟩⟩
  · exact ⟨⟨fun h => absurd h (by decide), fun hc => absurd hc h60⟩,
      ⟨fun h => absurd h (by decide), fun hc => absurd hc.2 h300⟩,
      ⟨fun _ => not_lt.mp h300, fun _ => rfl⟩⟩

/-- C2: a 402 answer carrying a quote is classified as payment pending on
both the create-bid and the check-bid operation, with one urgency value
that is a function of the quote's `expires_in` alone: `critical` iff it is
below 60, `high` iff it is in `[60, 300)`, `normal` iff it is at least
300. -/
theorem claim2_payment_urgency (amt w bidIdv : JSValue) (nowIso : String)
    (info bidBody : Body) (e : ℚ)
    (hamt : (validateBidAmount amt).isOk = true)
    (hw : (validateWallet w).isOk = true)
    (hid : (validateBidId bidIdv).isOk = true)
    (he : bidBody.expires_in = some e) :
    ∃ r1 r2 : MCPResponse,
      (handleCreateBid amt w nowIso (200, info) (402, bidBody)).1 = .ok r1 ∧
      (handleCheckBidById bidIdv (402, bidBody)).1 = .ok r2 ∧
      r1.status = some "payment_required" ∧ r1.action_required = some "payment" ∧
      r2.status = some "payment_pending" ∧ r2.action_required = some "payment" ∧
      ∃ u : String, r1.urgency = some u ∧ r2.urgency = some u ∧
        (u = "critical" ↔ e < 60) ∧ (u = "high" ↔ 60 ≤ e ∧ e < 300) ∧
        (u = "normal" ↔ 300 ≤ e) := by
  obtain ⟨ua, hua⟩ := except_isOk_exists _ hamt
  obtain ⟨uw, huw⟩ := except_isOk_exists _ hw
  obtain ⟨ui, hui⟩ := except_isOk_exists _ hid
  have hinfo : getAuctionInfo 200 info = .ok info := by
    simp [getAuctionInfo, HTTP_STATUS.NOT_FOUND, HTTP_STATUS.OK]
  have hbid : createBid 402 bidBody = .ok (402, bidBody) := by
    simp [createBid, HTTP_STATUS.PAYMENT_REQUIRED]
  have hchk : checkBidById 402 bidBody = .ok (402, bidBody) := by
    simp [checkBidById, HTTP_STATUS.NOT_FOUND, HTTP_STATUS.OK,
      HTTP_STATUS.PAYMENT_REQUIRED, HTTP_STATUS.GONE]
  refine ⟨createBidPaymentRequired info bidBody nowIso, checkBidPaymentPending bidBody,
    ?_, ?_, rfl, rfl, rfl, rfl, ?_⟩
  · simp only [handleCreateBid, hua, huw, hinfo, hbid]
    rfl
  · simp only [handleCheckBidById, hui, hchk]
    rfl
  · obtain ⟨hc, hh, hn⟩ := urgencyFor_iff e
    exact ⟨urgencyFor (some e), by simp [createBidPaymentRequired, he],
      by simp [checkBidPaymentPending, he], hc, hh, hn⟩

/-- C2 witness: a quote with 30 seconds remaining is critical on both
operations. -/
theorem claim2_witness :
    ∃ r1 r2 : MCPResponse,
      (handleCreateBid (.num (.fin 5)) (.str "UQW2") "t2" (200, {})
        (402, ({ expires_in := some 30 } : Body))).1 = .ok r1 ∧
      (handleCheckBidById (.str "bid_w2") (402, ({ expires_in := some 30 } : Body))).1 = .ok r2 ∧
      r1.status = some "payment_required" ∧ r1.action_required = some "payment" ∧
      r2.status = some "payment_pending" ∧ r2.action_required = some "payment" ∧
      ∃ u : String, r1.urgency = some u ∧ r2.urgency = some u ∧
        (u = "critical" ↔ (30 : ℚ) < 60) ∧ (u = "high" ↔ (60 : ℚ) ≤ 30 ∧ (30 : ℚ) < 300) ∧
        (u = "normal" ↔ (300 : ℚ) ≤ 30) :=
  claim2_payment_urgency (.num (.fin 5)) (.str "UQW2") (.str "bid_w2") "t2" {}
    { expires_in := some 30 } 30 (by decide) (by decide) (by decide) rfl

/-- C8: an allocated existing-bid record with a decimal refund amount is
classified with `allocation.oversubscribed` true exactly when the refund is
positive and `full_allocation` its negation, on both the get-my-bid and the
create-bid (existing bid) paths.  The refund hypothesis excludes only
decimal strings below the smallest positive double (over 300 fractional
digits). -/
theorem claim8_allocation (bid info : Body) (s : String) (n f : ℕ)
    (w amt wc : JSValue) (nowIso : String) (checkResp : ℤ × Body)
    (hst : bid.status = some "allocated") (hr : bid.refund_ton = some s)
    (hp : parseDecimal s = some (n, f))
    (hbig : n = 0 ∨ (10 : ℕ) ^ f ≤ n * 2 ^ 1074)
    (hw : (validateWallet w).isOk = true)
    (hamt : (validateBidAmount amt).isOk = true)
    (hwc : (validateWallet wc).isOk = true) :
    (∃ r alloc, (handleGetMyBid w nowIso (200, bid) checkResp).1 = .ok r ∧
      r.allocation = some alloc ∧ alloc.success = true ∧
      (alloc.oversubscribed = true ↔ (0 : ℚ) < (n : ℚ) / (10 : ℚ) ^ f) ∧
      alloc.full_allocation = !alloc.oversubscribed) ∧
    (∃ r alloc, (handleCreateBid amt wc nowIso (200, info) (200, bid)).1 = .ok r ∧
      r.allocation = some alloc ∧ alloc.success = true ∧
      (alloc.oversubscribed = true ↔ (0 : ℚ) < (n : ℚ) / (10 : ℚ) ^ f) ∧
      alloc.full_allocation = !alloc.oversubscribed) := by
  obtain ⟨u2, hu2⟩ := except_isOk_exists _ hw
  obtain ⟨ua, hua⟩ := except_isOk_exists _ hamt
  obtain ⟨uc, huc⟩ := except_isOk_exists _ hwc
  have hover : hasRefundOf bid.refund_ton = true ↔ (0 : ℚ) < (n : ℚ) / (10 : ℚ) ^ f := by
    rw [hr, decValue_pos_iff]
    exact hasRefundOf_iff s n f hp hbig
  constructor
  · have hg : getMyBid 200 bid = .ok bid := by simp [getMyBid, HTTP_STATUS.OK]
    have hnp : ¬ (bid.status = some "pending") := by
      rw [hst]
      simp
    have hall : myBidStatusResponse bid (jsStrOf w) nowIso =
        { spreadMyBid bid with
            wallet := some (jsStrOf w)
            action_required := some "none"
            allocation := some ⟨true, hasRefundOf bid.refund_ton,
              !hasRefundOf bid.refund_ton, "pay-as-bid"⟩
            next_step := some "check_wallet"
            timestamp := some nowIso } := by
      simp [myBidStatusResponse, hst]
    refine ⟨myBidStatusResponse bid (jsStrOf w) nowIso,
      ⟨true, hasRefundOf bid.refund_ton, !hasRefundOf bid.refund_ton, "pay-as-bid"⟩,
      ?_, ?_, rfl, hover, rfl⟩
    · simp only [handleGetMyBid, hu2, hg]
      rw [if_neg hnp]
    · rw [hall]
  · have hinfo : getAuctionInfo 200 info = .ok info := by
      simp [getAuctionInfo, HTTP_STATUS.NOT_FOUND, HTTP_STATUS.OK]
    have hbid : createBid 200 bid = .ok (200, bid) := by
      simp [createBid, HTTP_STATUS.PAYMENT_REQUIRED, HTTP_STATUS.OK]
    refine ⟨_, ⟨true, hasRefundOf bid.refund_ton, !hasRefundOf bid.refund_ton, "pay-as-bid"⟩,
      by simp only [handleCreateBid, hua, huc, hinfo, hbid, hst]; rfl, rfl, rfl, hover, rfl⟩

/-- C8 witness: the spec scenario — status `allocated`, `refund_ton = "0"`. -/
theorem claim8_witness :
    ∃ r alloc,
      (handleGetMyBid (.str "UQW8") "t8"
        (200, ({ status := some "allocated", refund_ton := some "0" } : Body)) (200, {})).1 =
        .ok r ∧
      r.allocation = some alloc ∧ alloc.success = true ∧
      (alloc.oversubscribed = true ↔ (0 : ℚ) < ((0 : ℕ) : ℚ) / (10 : ℚ) ^ (0 : ℕ)) ∧
      alloc.full_allocation = !alloc.oversubscribed :=
  (claim8_allocation { status := some "allocated", refund_ton := some "0" } {} "0" 0 0
    (.str "UQW8") (.num (.fin 5)) (.str "UQW8C") "t8" (200, {}) rfl rfl (by decide)
    (Or.inl rfl) (by decide) (by decide) (by decide)).1

/-- C3 counterexample: the deeplink built from the decimal amount `"4.1"`
embeds 4099999999 nanotons, while multiplying `4.1` by `10 ^ 9` exactly and
truncating toward zero gives 4100000000 — the universally quantified claim
fails because the source computes `Math.floor(parseFloat(a) * 1e9)` in
binary64 floating point. -/
theorem claim3_counterexample :
    generateTonDeeplink "R" "4.1" "C" = "ton://transfer/R?amount=4099999999&text=C" ∧
    specNanotons "4.1" = some 4100000000 ∧
    tonAmountNanotons "4.1" = some 4099999999 ∧ (4099999999 : ℤ) ≠ 4100000000 := by
  exact ⟨by decide, by decide, by decide, by decide⟩

/-- C3 amended: the deeplink embeds `Math.floor(parseFloat(a) * 1e9)`
computed in binary64; for `a = "2.5"`, whose product is exactly
representable, this is exactly the 2500000000 of the spec round-trip, for
every recipient and comment. -/
theorem claim3_amended :
    (∀ destination comment : String,
      generateTonDeeplink destination "2.5" comment =
        "ton://transfer/" ++ destination ++ "?amount=2500000000&text=" ++
          encodeURIComponent comment) ∧
    specNanotons "2.5" = some 2500000000 ∧ tonAmountNanotons "2.5" = some 2500000000 := by
  refine ⟨?_, by decide, by decide⟩
  intro destination comment
  unfold generateTonDeeplink
  rw [show nanotonsStr "2.5" = "2500000000" from by decide]
  simp only [String.append_assoc]
  congr 2

/-- C10: the calm-token cache invariant — a token is attached as the
`calm-token` request header only if the stored entry for the endpoint has
its recorded expiry strictly in the future at request time (an expired
entry is never sent), and a rate-limited response carrying a calm token
replaces the endpoint's entry with the new token expiring
`calm_token_expires_in` seconds (in milliseconds) after the current time. -/
theorem claim10_calm_token :
    (∀ (st : CalmStore) (e t : String) (now1 now2 : ℚ) (resp : ℤ × Body),
      ("calm-token", t) ∈ (fetchWithStatus st (some e) now1 now2 resp).headers →
      ∃ exp : ℚ, storeGet st e = some ⟨t, some exp⟩ ∧ now1 < exp) ∧
    (∀ (st : CalmStore) (e tok : String) (now1 now2 : ℚ) (status : ℤ) (body : Body) (q : ℚ),
      status = HTTP_STATUS.RATE_LIMITED → e ≠ "" → tok ≠ "" →
      body.calm_token = some tok → body.calm_token_expires_in = some q →
      storeGet (fetchWithStatus st (some e) now1 now2 (status, body)).store e =
        some ⟨tok, some (now2 + q * 1000)⟩) := by
  constructor
  · intro st e t now1 now2 resp hmem
    simp only [fetchWithStatus] at hmem
    by_cases he : e = ""
    · rw [if_pos he] at hmem
      simp at hmem
    · rw [if_neg he] at hmem
      rcases hget : getCalmToken st e now1 with _ | t2
      · rw [hget] at hmem
        simp at hmem
      · rw [hget] at hmem
        have ht : t = t2 := by simpa using hmem
        subst ht
        unfold getCalmToken at hget
        split at hget
        next td heq =>
          split at hget
          next ex hexp =>
            split at hget
            next hlt =>
              injection hget with htok
              refine ⟨ex, ?_, hlt⟩
              rw [heq]
              cases td with
              | mk a b =>
                simp only at htok hexp
                rw [htok, hexp]
            next hlt => exact Option.noConfusion hget
          next hexp => exact Option.noConfusion hget
        next heq => exact Option.noConfusion hget
  · intro st e tok now1 now2 status body q hstatus he htok hct hcei
    subst hstatus
    simp [fetchWithStatus, setCalmToken, he, htok, hct, hcei, storeGet_storeSet]

/-- C10 witness: a live token is attached (with its strictly-future
expiry), and a 420 carrying a fresh token replaces the store entry. -/
theorem claim10_witness :
    (∃ exp : ℚ, storeGet [("ep", ⟨"tokA", some 10⟩)] "ep" = some ⟨"tokA", some exp⟩ ∧
      (5 : ℚ) < exp) ∧
    storeGet (fetchWithStatus [] (some "ep") 0 7
      (420, { calm_token := some "tokB", calm_token_expires_in := some 30 })).store "ep" =
      some ⟨"tokB", some ((7 : ℚ) + 30 * 1000)⟩ :=
  ⟨claim10_calm_token.1 [("ep", ⟨"tokA", some 10⟩)] "ep" "tokA" 5 0 (200, {}) (by decide),
   claim10_calm_token.2 [] "ep" "tokB" 0 7 420
     { calm_token := some "tokB", calm_token_expires_in := some 30 } 30 rfl (by decide)
     (by decide) rfl rfl⟩

end X402
